import Mathlib

/-!
Verification of the reference-counting core of a lock-free atomic
shared-pointer library (cdrc-rs): the sticky two-flag counter, the counted
object header, the marked (tagged) pointer word, the atomic cell
operations, and the epoch backend's ejection sweep, shallowly embedded as
pure Lean functions over `Nat` machine words.

Atomics are embedded sequentially: each atomic read-modify-write acts on
the current state, so a `compare_exchange` issued right after a load of
the same location always observes the loaded value.
-/

/-! ## Sticky counter (src/src/internal/utils.rs) -/

/-- The domain of the 32-bit counter word (`Count = u32`). -/
def countWord : Nat := 2 ^ 32

/-- `StickyCounter::zero_flag()`: `1 << (sizeof(u32) * 8 - 1)`, bit 31. -/
def zeroFlag : Nat := 2 ^ 31

/-- `StickyCounter::zero_pending_flag()`: `1 << (sizeof(u32) * 8 - 2)`, bit 30. -/
def zeroPendingFlag : Nat := 2 ^ 30

/-- `StickyCounter::new()` starts the counter word at 1. -/
def stickyNew : Nat := 1

/-- `StickyCounter::increment(add)`: `fetch_add(add)`; the result is true iff
the pre-value did not have `ZERO_FLAG` set.  Returns (new state, result). -/
def StickyCounter.increment (s add : Nat) : Nat × Bool :=
  ((s + add) % countWord, decide (s &&& zeroFlag = 0))

/-- `StickyCounter::decrement(sub)`: `fetch_sub(sub)` (wrapping, as on `u32`);
if the pre-value equals `sub`, commit the zero with
`compare_exchange(0, ZERO_FLAG)`; on CAS failure, if the observed value has
`ZERO_PENDING_FLAG` set, `swap(ZERO_FLAG)` in and report whether the swapped
out value still had the pending flag (the `&&` short-circuits, so the swap
only happens when the first operand is true).  Returns (new state, result). -/
def StickyCounter.decrement (s sub : Nat) : Nat × Bool :=
  let t := (s + (countWord - sub % countWord)) % countWord
  if s = sub then
    if t = 0 then (zeroFlag, true)
    else if 0 < t &&& zeroPendingFlag then (zeroFlag, true)
    else (t, false)
  else (t, false)

/-- `StickyCounter::load()`: read the word; a non-zero value with
`ZERO_FLAG` set reads as 0, a non-zero value without the flag reads as
itself; on reading 0, `compare_exchange(0, ZERO_FLAG | ZERO_PENDING_FLAG)`
(which succeeds in the sequential embedding, since the state still equals
the loaded value) and report 0.  Returns (new state, loaded value). -/
def StickyCounter.load (s : Nat) : Nat × Nat :=
  if s ≠ 0 then (s, if 0 < s &&& zeroFlag then 0 else s)
  else (zeroFlag ||| zeroPendingFlag, 0)

/-! ## Counted object header (src/src/internal/utils.rs) -/

/-- `EjectAction` from src/src/internal/utils.rs. -/
inductive EjectAction
  | Nothing
  | Delay
  | Destroy
deriving DecidableEq, Repr

/-- `CountedObject<T>`: the payload slot (`ManuallyDrop<T>`, live until
`dispose`), the strong counter word and the weak counter word. -/
structure CountedObject where
  storageLive : Bool
  refCnt : Nat
  weakCnt : Nat
deriving DecidableEq, Repr

/-- `CountedObject::new`: both counters start as fresh sticky counters. -/
def CountedObject.new : CountedObject :=
  { storageLive := true, refCnt := stickyNew, weakCnt := stickyNew }

/-- `CountedObject::dispose`: drop the payload, keep the control data. -/
def CountedObject.dispose (c : CountedObject) : CountedObject :=
  { c with storageLive := false }

/-- `CountedObject::add_refs(count)`: sticky increment of the strong counter. -/
def CountedObject.addRefs (c : CountedObject) (count : Nat) : CountedObject × Bool :=
  let (r, ok) := StickyCounter.increment c.refCnt count
  ({ c with refCnt := r }, ok)

/-- `CountedObject::add_weak_refs(count)`: sticky increment of the weak counter. -/
def CountedObject.addWeakRefs (c : CountedObject) (count : Nat) : CountedObject × Bool :=
  let (w, ok) := StickyCounter.increment c.weakCnt count
  ({ c with weakCnt := w }, ok)

/-- `CountedObject::release_weak_refs(count)`: sticky decrement of the weak
counter; true means the caller should delete the object. -/
def CountedObject.releaseWeakRefs (c : CountedObject) (count : Nat) : CountedObject × Bool :=
  let (w, zeroed) := StickyCounter.decrement c.weakCnt count
  ({ c with weakCnt := w }, zeroed)

/-- `CountedObject::release_refs(count)`: sticky decrement of the strong
counter; if this call zeroed it, load the weak counter: 1 means dispose the
payload now and ask the caller to `Destroy`, anything else means `Delay`;
otherwise `Nothing`. -/
def CountedObject.releaseRefs (c : CountedObject) (count : Nat) : CountedObject × EjectAction :=
  let (r, zeroed) := StickyCounter.decrement c.refCnt count
  let c₁ : CountedObject := { c with refCnt := r }
  if zeroed then
    let (w, wval) := StickyCounter.load c₁.weakCnt
    let c₂ : CountedObject := { c₁ with weakCnt := w }
    if wval = 1 then (c₂.dispose, EjectAction.Destroy)
    else (c₂, EjectAction.Delay)
  else (c₁, EjectAction.Nothing)

/-- `RetireType` from src/src/internal/smr_common.rs. -/
inductive RetireType
  | DecrementStrongCount
  | DecrementWeakCount
  | Dispose
deriving DecidableEq, Repr

/-- What `AcquireRetire::decrement_ref_cnt` does after `release_refs(1)`:
nothing, retire a record of the given type, or destroy the object. -/
inductive DecRefOutcome
  | noAction
  | retired (t : RetireType)
  | destroyed
deriving DecidableEq, Repr

/-- `AcquireRetire::decrement_ref_cnt` (src/src/internal/smr_common.rs):
`release_refs(1)`, then `Nothing` does nothing, `Delay` retires a `Dispose`
record, `Destroy` destroys the object. -/
def decrementRefCnt (c : CountedObject) : CountedObject × DecRefOutcome :=
  match c.releaseRefs 1 with
  | (c', EjectAction.Nothing) => (c', DecRefOutcome.noAction)
  | (c', EjectAction.Delay) => (c', DecRefOutcome.retired RetireType.Dispose)
  | (c', EjectAction.Destroy) => (c', DecRefOutcome.destroyed)

/-! ## Marked (tagged) pointer word (src/src/internal/utils.rs)

A pointer is a 64-bit `usize` word; `k` is the number of low alignment
bits available for the mark (`low_bits::<T>() = (1 << align_of::<T>()
.trailing_zeros()) - 1 = 2^k - 1`). -/

/-- The domain of the 64-bit pointer word. -/
def usizeWord : Nat := 2 ^ 64

/-- `low_bits::<T>()`: mask of the `k` unused low bits of an aligned pointer. -/
def lowBits (k : Nat) : Nat := 2 ^ k - 1

/-- The 64-bit complement `!low_bits::<T>()` of the low-bit mask. -/
def notLowBits (k : Nat) : Nat := (usizeWord - 1) ^^^ lowBits k

/-- `MarkedPtr::mark()`: `ptr & low_bits`. -/
def MarkedPtr.mark (k p : Nat) : Nat := p &&& lowBits k

/-- `MarkedPtr::unmarked()`: `ptr & !low_bits`. -/
def MarkedPtr.unmarked (k p : Nat) : Nat := p &&& notLowBits k

/-- Free function `with_mark(ptr, mark)`: `(ptr & !low_bits) | (mark & low_bits)`. -/
def withMarkPtr (k p m : Nat) : Nat := (p &&& notLowBits k) ||| (m &&& lowBits k)

/-- `MarkedPtr::with_mark(mark)` delegates to the free `with_mark`. -/
def MarkedPtr.withMark (k p m : Nat) : Nat := withMarkPtr k p m

/-- `MarkedPtr::is_null()`: the unmarked address is null. -/
def MarkedPtr.isNull (k p : Nat) : Bool := MarkedPtr.unmarked k p == 0

/-! ## EBR snapshot protection and strong-cell loads
(src/src/internal/smr/ebr.rs, src/src/rc_ptr.rs, src/src/atomic_rc_ptr.rs)

A cell is one marked pointer word `link`; `h` is the counted object at the
(single) non-null address the claims exercise, threaded through explicitly. -/

/-- `GuardEBR::reserve_snapshot(ptr)`: a non-null pointer whose object's
`use_count()` is 0 becomes a null acquired pointer, otherwise the pointer is
kept.  `use_count()` is a sticky load of the strong counter, which can
itself commit flags, so the (possibly updated) header is returned too. -/
def reserveSnapshot (k p : Nat) (h : CountedObject) : CountedObject × Nat :=
  if MarkedPtr.unmarked k p ≠ 0 then
    let (r, uc) := StickyCounter.load h.refCnt
    let h' : CountedObject := { h with refCnt := r }
    if uc = 0 then (h', 0) else (h', p)
  else (h, p)

/-- `GuardEBR::protect_snapshot(link)`: load the link, then `reserve_snapshot`. -/
def protectSnapshot (k link : Nat) (h : CountedObject) : CountedObject × Nat :=
  reserveSnapshot k link h

/-- `RcPtr::new_with_incr(ptr)`: keep `ptr` and, when it is non-null,
`increment_ref_cnt` on its object — the returned `bool` of `add_refs(1)` is
discarded.  Returns (rc pointer, header). -/
def RcPtr.newWithIncr (k p : Nat) (h : CountedObject) : Nat × CountedObject :=
  if MarkedPtr.unmarked k p ≠ 0 then
    (p, ((h.addRefs 1).1))
  else (p, h)

/-- `AtomicRcPtr::load(guard)` with the EBR guard: `acquire` is a plain
load of the link, then `RcPtr::new_with_incr` on the acquired pointer. -/
def AtomicRcPtr.load (k link : Nat) (h : CountedObject) : Nat × CountedObject :=
  RcPtr.newWithIncr k link h

/-- `AtomicRcPtr::fetch_or(mark)`: CAS loop replacing `cur` by
`cur.with_mark(cur.mark() | mark)` — sequentially the first CAS succeeds —
then return `reserve_snapshot(cur)` as a snapshot of the previous value.
Returns (new link, header after the snapshot's counter load, snapshot ptr). -/
def AtomicRcPtr.fetchOr (k link : Nat) (h : CountedObject) (mark : Nat) :
    Nat × CountedObject × Nat :=
  let cur := link
  let new := MarkedPtr.withMark k cur (MarkedPtr.mark k cur ||| mark)
  let (h', snap) := reserveSnapshot k cur h
  (new, h', snap)

/-! ## New-surface strong and weak cells (src/src/strongs.rs, src/src/weaks.rs)

`Tagged`/`TaggedCnt` of the new surface is the marked word above (tag =
mark).  `CountedObject::add_ref`, called by the `into_ref_count` /
`into_weak_count` impls, is not defined under src/. -/

/-- Modelled from the spec: `CountedObject::add_ref`, called by
`StrongPtr::into_ref_count` and `WeakPtr::into_weak_count` in
src/src/strongs.rs and src/src/weaks.rs, has no definition under src/.
The spec's `compare_exchange` row says a snapshot `desired` is consumed by
a sticky-increment of the strong count, so `add_ref` is
`ref_cnt.increment(1)`. -/
def CountedObject.addRef (c : CountedObject) : CountedObject :=
  (c.addRefs 1).1

/-- A `P: StrongPtr<T, G> + Pointer<T>` argument of
`AtomicRc::compare_exchange`: an owned `Rc` or a `Snapshot`. -/
inductive StrongP
  | rc (p : Nat)
  | snapshot (p : Nat)
deriving DecidableEq, Repr

/-- `Pointer::as_ptr` for `StrongP`. -/
def StrongP.asPtr : StrongP → Nat
  | StrongP.rc p => p
  | StrongP.snapshot p => p

/-- `StrongPtr::into_ref_count`: an `Rc` is forgotten (its count unit moves
into the cell); a `Snapshot` calls `cnt.add_ref()` on its non-null target. -/
def StrongP.intoRefCount (k : Nat) : StrongP → CountedObject → CountedObject
  | StrongP.rc _, c => c
  | StrongP.snapshot p, c =>
    if MarkedPtr.unmarked k p ≠ 0 then c.addRef else c

/-- `AtomicRc::compare_exchange(expected, desired, ..)`: CAS the link from
`expected` to `desired.as_ptr()`; on success build the displaced `Rc` from
`expected` without an increment and consume `desired` via `into_ref_count`;
on failure return `CompareExchangeErrorRc { desired, current }` untouched.
Returns ((new link, header of desired's target), Ok displaced ptr ⊕
Err (desired, current)). -/
def AtomicRc.compareExchange (k link expected : Nat) (desired : StrongP)
    (h : CountedObject) : (Nat × CountedObject) × (Sum Nat (StrongP × Nat)) :=
  if link = expected then
    ((desired.asPtr, desired.intoRefCount k h), Sum.inl expected)
  else
    ((link, h), Sum.inr (desired, link))

/-- `AtomicRc::fetch_or(tag)`: a raw `usize` `fetch_or` on the link word;
returns the previous word.  The header is untouched.
Returns (new link, header, previous word). -/
def AtomicRc.fetchOr (link : Nat) (h : CountedObject) (tag : Nat) :
    Nat × CountedObject × Nat :=
  (link ||| tag, h, link)

/-- A `P: WeakPtr<T, G>` argument of `AtomicWeak::compare_exchange`: an
owned `Weak` or a `WeakSnapshot`. -/
inductive WeakP
  | weak (p : Nat)
  | weakSnapshot (p : Nat)
deriving DecidableEq, Repr

/-- `WeakPtr::as_ptr` for `WeakP`. -/
def WeakP.asPtr : WeakP → Nat
  | WeakP.weak p => p
  | WeakP.weakSnapshot p => p

/-- `WeakPtr::into_weak_count`: a `Weak` is forgotten; a `WeakSnapshot`
calls `cnt.add_ref()` on its non-null target (src/src/weaks.rs:406-411). -/
def WeakP.intoWeakCount (k : Nat) : WeakP → CountedObject → CountedObject
  | WeakP.weak _, c => c
  | WeakP.weakSnapshot p, c =>
    if MarkedPtr.unmarked k p ≠ 0 then c.addRef else c

/-- `AtomicWeak::compare_exchange(expected, desired, ..)`: CAS the link
from `expected` to `desired.as_ptr()`; on success build the displaced
`Weak` from `expected` without an increment and consume `desired` via
`into_weak_count`; on failure return `CompareExchangeErrorWeak { desired,
actual }`.  Returns ((new link, header of desired's target), Ok displaced
ptr ⊕ Err (desired, actual)). -/
def AtomicWeak.compareExchange (k link expected : Nat) (desired : WeakP)
    (h : CountedObject) : (Nat × CountedObject) × (Sum Nat (WeakP × Nat)) :=
  if link = expected then
    ((desired.asPtr, desired.intoWeakCount k h), Sum.inl expected)
  else
    ((link, h), Sum.inr (desired, link))

/-- Modelled from the spec: `Weak::upgrade` is `todo!()` in
src/src/weaks.rs:201-203.  Spec §4.6: it attempts `add_strong(1)` on the
header and succeeds iff the strong count had not reached zero; an
observed-expired target surfaces as a null result.  Returns (strong ptr,
header). -/
def Weak.upgrade (k p : Nat) (h : CountedObject) : Nat × CountedObject :=
  if MarkedPtr.unmarked k p ≠ 0 then
    let (h', ok) := h.addRefs 1
    if ok then (p, h') else (0, h')
  else (0, h)

/-! ## Epoch backend ejection sweep (src/src/internal/smr/ebr.rs) -/

/-- A deferred `Record`: the erased pointer and the retire timestamp the
sweep compares against the minimum announced epoch (the deleter and retire
kind do not matter for the partitioning). -/
structure DeferredRecord where
  ptr : Nat
  retireTs : Nat
deriving DecidableEq, Repr

/-- The records `BaseEBR::work_toward_ejects` returns to the deferred list:
the `filter_map` drain keeps exactly the records whose `retire_ts` is not
below the minimum announced epoch, in order. -/
def sweepKept (defers : List DeferredRecord) (minEpoch : Nat) : List DeferredRecord :=
  defers.filterMap fun d => if d.retireTs < minEpoch then none else some d

/-- The records `BaseEBR::work_toward_ejects` ejects during the sweep:
the `filter_map` drain ejects exactly the records whose `retire_ts` is
strictly below the minimum announced epoch. -/
def sweepEjected (defers : List DeferredRecord) (minEpoch : Nat) : List DeferredRecord :=
  defers.filterMap fun d => if d.retireTs < minEpoch then some d else none

/-! ## Sequential traces of one sticky counter -/

/-- One client operation on a sticky counter. -/
inductive StickyOp
  | inc (n : Nat)
  | dec (n : Nat)
  | load
deriving DecidableEq, Repr

/-- The state after running one operation. -/
def stickyApply (s : Nat) : StickyOp → Nat
  | StickyOp.inc n => (StickyCounter.increment s n).1
  | StickyOp.dec n => (StickyCounter.decrement s n).1
  | StickyOp.load => (StickyCounter.load s).1

/-- The value the counter currently represents: 0 once `ZERO_FLAG` is
committed, the word itself otherwise. -/
def logicalVal (s : Nat) : Nat := if 0 < s &&& zeroFlag then 0 else s

/-- A well-formed operation, per the documented preconditions of
`StickyCounter`: increments may not overflow the 32-bit word, and the
counter is never decremented by more than its current value (nor by 0,
since a decrement consumes at least one reference). -/
def StickyOp.valid (s : Nat) : StickyOp → Prop
  | StickyOp.inc n => s + n < countWord
  | StickyOp.dec n => 1 ≤ n ∧ n ≤ logicalVal s
  | StickyOp.load => True

/-- States reachable from `s` by a sequence of well-formed operations. -/
inductive StickyTrace : Nat → Nat → Prop
  | refl (s : Nat) : StickyTrace s s
  | step {s t : Nat} (op : StickyOp) :
      StickyTrace s t → op.valid t → StickyTrace s (stickyApply t op)

/-- States reachable from a fresh counter (`StickyCounter::new()`). -/
def StickyReachable (s : Nat) : Prop := StickyTrace stickyNew s

/-! ## Bitwise helper lemmas -/

lemma testBit_lowBits (k i : Nat) : (lowBits k).testBit i = decide (i < k) := by
  simp [lowBits, Nat.testBit_two_pow_sub_one]

lemma testBit_notLowBits (k i : Nat) (hk : k ≤ 64) :
    (notLowBits k).testBit i = (decide (i < 64) && !decide (i < k)) := by
  simp only [notLowBits, usizeWord, Nat.testBit_xor, Nat.testBit_two_pow_sub_one,
    testBit_lowBits]
  by_cases h1 : i < k <;> by_cases h2 : i < 64 <;> simp [h1, h2] <;> omega

lemma unmarked_withMarkPtr (k p m : Nat) (hk : k ≤ 64) :
    MarkedPtr.unmarked k (withMarkPtr k p m) = MarkedPtr.unmarked k p := by
  apply Nat.eq_of_testBit_eq
  intro i
  simp only [MarkedPtr.unmarked, withMarkPtr, Nat.testBit_land, Nat.testBit_lor,
    testBit_notLowBits k i hk, testBit_lowBits]
  by_cases h1 : i < k <;> by_cases h2 : i < 64 <;> simp [h1, h2]

lemma mark_withMarkPtr (k p m : Nat) (hk : k ≤ 64) :
    MarkedPtr.mark k (withMarkPtr k p m) = m &&& lowBits k := by
  apply Nat.eq_of_testBit_eq
  intro i
  simp only [MarkedPtr.mark, withMarkPtr, Nat.testBit_land, Nat.testBit_lor,
    testBit_notLowBits k i hk, testBit_lowBits]
  by_cases h1 : i < k <;> by_cases h2 : i < 64 <;> simp [h1, h2]

lemma and_pow_eq_zero_iff (x i : Nat) : x &&& 2 ^ i = 0 ↔ x.testBit i = false := by
  rw [Nat.and_two_pow x i]
  cases h : x.testBit i <;> simp [h, Nat.pos_iff_ne_zero, Nat.pow_pos]

lemma and_pow_pos_iff (x i : Nat) : 0 < x &&& 2 ^ i ↔ x.testBit i = true := by
  rw [Nat.pos_iff_ne_zero, ne_eq, and_pow_eq_zero_iff]
  cases h : x.testBit i <;> simp [h]

lemma testBit_31_iff (x : Nat) (hx : x < countWord) :
    x.testBit 31 = true ↔ 2 ^ 31 ≤ x := by
  rw [Nat.testBit_to_div_mod]
  have hlt : x / 2 ^ 31 < 2 := by
    rw [Nat.div_lt_iff_lt_mul (by positivity)]
    simpa [countWord] using hx
  have hmod : x / 2 ^ 31 % 2 = x / 2 ^ 31 := Nat.mod_eq_of_lt hlt
  rw [hmod, decide_eq_true_eq]
  constructor
  · intro h
    have h1 : 1 ≤ x / 2 ^ 31 := by omega
    simpa using (Nat.le_div_iff_mul_le (by positivity)).1 h1
  · intro h
    have h1 : 1 ≤ x / 2 ^ 31 := (Nat.le_div_iff_mul_le (by positivity)).2 (by simpa using h)
    omega

lemma masked_bit_lt {k t : Nat} (ht : t &&& lowBits k = t) {i : Nat}
    (hbit : t.testBit i = true) : i < k := by
  have h2 := congrArg (fun x => Nat.testBit x i) ht
  simp only [Nat.testBit_land, testBit_lowBits, hbit, Bool.true_and] at h2
  exact of_decide_eq_true h2

lemma unmarked_lor_masked (k link t : Nat) (hk : k ≤ 64) (ht : t &&& lowBits k = t) :
    MarkedPtr.unmarked k (link ||| t) = MarkedPtr.unmarked k link := by
  apply Nat.eq_of_testBit_eq
  intro i
  simp only [MarkedPtr.unmarked, Nat.testBit_land, Nat.testBit_lor,
    testBit_notLowBits k i hk]
  cases hbit : t.testBit i
  · simp
  · have hik : i < k := masked_bit_lt ht hbit
    simp [hik]

lemma mark_lor_masked (k link t : Nat) (ht : t &&& lowBits k = t) :
    MarkedPtr.mark k (link ||| t) = MarkedPtr.mark k link ||| t := by
  apply Nat.eq_of_testBit_eq
  intro i
  simp only [MarkedPtr.mark, Nat.testBit_land, Nat.testBit_lor, testBit_lowBits]
  cases hbit : t.testBit i
  · simp
  · have hik : i < k := masked_bit_lt ht hbit
    simp [hik]

lemma masked_lor_masked {k a t : Nat} (ha : a &&& lowBits k = a)
    (ht : t &&& lowBits k = t) : (a ||| t) &&& lowBits k = a ||| t := by
  apply Nat.eq_of_testBit_eq
  intro i
  simp only [Nat.testBit_land, Nat.testBit_lor, testBit_lowBits]
  cases hbita : a.testBit i
  · cases hbitt : t.testBit i
    · simp
    · simp [masked_bit_lt ht hbitt]
  · simp [masked_bit_lt ha hbita]

lemma mark_masked (k p : Nat) : MarkedPtr.mark k p &&& lowBits k = MarkedPtr.mark k p := by
  apply Nat.eq_of_testBit_eq
  intro i
  simp [MarkedPtr.mark, Nat.testBit_land, Bool.and_assoc]

lemma load_result_ne_zero {s : Nat} (h : (StickyCounter.load s).2 ≠ 0) :
    (StickyCounter.load s).1 = s ∧ s ≠ 0 := by
  by_cases hs : s = 0
  · subst hs; simp [StickyCounter.load] at h
  · simp [StickyCounter.load, hs]

lemma reserveSnapshot_live (k p : Nat) (h : CountedObject)
    (hlive : (StickyCounter.load h.refCnt).2 ≠ 0) :
    reserveSnapshot k p h = (h, p) := by
  obtain ⟨hr, -⟩ := load_result_ne_zero hlive
  unfold reserveSnapshot
  by_cases hp : MarkedPtr.unmarked k p ≠ 0
  · rcases hld : StickyCounter.load h.refCnt with ⟨r, uc⟩
    have hrr : r = h.refCnt := by rw [hld] at hr; exact hr
    have huc : uc ≠ 0 := by rw [hld] at hlive; exact hlive
    simp [hp, hld, hrr, huc]
  · simp [hp]

/-- C10: `MarkedPtr::with_mark(m)` preserves the unmarked address
(`with_mark(m).unmarked() == unmarked()`) and keeps exactly the low
alignment bits of the requested mark
(`with_mark(m).mark() == m & low_bits::<T>()`): oversized mark values are
silently truncated at the public interface rather than rejected. -/
theorem c10_withMark_truncates (k p m : Nat) (hk : k ≤ 64) :
    MarkedPtr.unmarked k (MarkedPtr.withMark k p m) = MarkedPtr.unmarked k p ∧
      MarkedPtr.mark k (MarkedPtr.withMark k p m) = m &&& lowBits k := by
  unfold MarkedPtr.withMark
  exact ⟨unmarked_withMarkPtr k p m hk, mark_withMarkPtr k p m hk⟩

/-- C10 witness: alignment 4 (`k = 2`), pointer word 9, oversized mark 7. -/
theorem c10_withMark_truncates_witness :
    MarkedPtr.unmarked 2 (MarkedPtr.withMark 2 9 7) = MarkedPtr.unmarked 2 9 ∧
      MarkedPtr.mark 2 (MarkedPtr.withMark 2 9 7) = 7 &&& lowBits 2 :=
  c10_withMark_truncates 2 9 7 (by decide)

/-- C8: both `fetch_or` implementations — `AtomicRc::fetch_or`
(src/src/strongs.rs, a raw `usize` `fetch_or`) and `AtomicRcPtr::fetch_or`
(src/src/atomic_rc_ptr.rs, a CAS loop on `cur.with_mark(cur.mark() | m)`)
— return the previous tagged pointer, set the tag bits of the stored word,
never change the unmarked pointer identity in the cell, and leave the
header's strong and weak counter words untouched, for any tag value `t`
within the tag bits of a live header. -/
theorem c8_fetchOr_frame (k link t : Nat) (h : CountedObject) (hk : k ≤ 64)
    (ht : t &&& lowBits k = t) (hlive : (StickyCounter.load h.refCnt).2 ≠ 0) :
    ((AtomicRc.fetchOr link h t).2.2 = link ∧
      MarkedPtr.unmarked k (AtomicRc.fetchOr link h t).1 = MarkedPtr.unmarked k link ∧
      MarkedPtr.mark k (AtomicRc.fetchOr link h t).1 = MarkedPtr.mark k link ||| t ∧
      (AtomicRc.fetchOr link h t).2.1 = h) ∧
    ((AtomicRcPtr.fetchOr k link h t).2.2 = link ∧
      MarkedPtr.unmarked k (AtomicRcPtr.fetchOr k link h t).1 = MarkedPtr.unmarked k link ∧
      MarkedPtr.mark k (AtomicRcPtr.fetchOr k link h t).1 = MarkedPtr.mark k link ||| t ∧
      (AtomicRcPtr.fetchOr k link h t).2.1 = h) := by
  have hres := reserveSnapshot_live k link h hlive
  refine ⟨⟨rfl, ?_, ?_, rfl⟩, ⟨?_, ?_, ?_, ?_⟩⟩
  · exact unmarked_lor_masked k link t hk ht
  · exact mark_lor_masked k link t ht
  · simp [AtomicRcPtr.fetchOr, hres]
  · show MarkedPtr.unmarked k (AtomicRcPtr.fetchOr k link h t).1 = MarkedPtr.unmarked k link
    simp only [AtomicRcPtr.fetchOr, MarkedPtr.withMark]
    exact unmarked_withMarkPtr k link _ hk
  · show MarkedPtr.mark k (AtomicRcPtr.fetchOr k link h t).1 = MarkedPtr.mark k link ||| t
    simp only [AtomicRcPtr.fetchOr, MarkedPtr.withMark]
    rw [mark_withMarkPtr k link _ hk]
    exact masked_lor_masked (mark_masked k link) ht
  · simp [AtomicRcPtr.fetchOr, hres]

/-- C8 witness: alignment 4 (`k = 2`), cell word 9 (address 8, tag 1),
tag value 2, fresh live header. -/
theorem c8_fetchOr_frame_witness :
    ((AtomicRc.fetchOr 9 CountedObject.new 2).2.2 = 9 ∧
      MarkedPtr.unmarked 2 (AtomicRc.fetchOr 9 CountedObject.new 2).1 =
        MarkedPtr.unmarked 2 9 ∧
      MarkedPtr.mark 2 (AtomicRc.fetchOr 9 CountedObject.new 2).1 =
        MarkedPtr.mark 2 9 ||| 2 ∧
      (AtomicRc.fetchOr 9 CountedObject.new 2).2.1 = CountedObject.new) ∧
    ((AtomicRcPtr.fetchOr 2 9 CountedObject.new 2).2.2 = 9 ∧
      MarkedPtr.unmarked 2 (AtomicRcPtr.fetchOr 2 9 CountedObject.new 2).1 =
        MarkedPtr.unmarked 2 9 ∧
      MarkedPtr.mark 2 (AtomicRcPtr.fetchOr 2 9 CountedObject.new 2).1 =
        MarkedPtr.mark 2 9 ||| 2 ∧
      (AtomicRcPtr.fetchOr 2 9 CountedObject.new 2).2.1 = CountedObject.new) :=
  c8_fetchOr_frame 2 9 2 CountedObject.new (by decide) (by decide) (by decide)

/-! ## Sticky-zero permanence -/

lemma flagged_of_load_eq_zero {s : Nat} (h : (StickyCounter.load s).2 = 0) :
    0 < (StickyCounter.load s).1 &&& zeroFlag := by
  by_cases hs : s = 0
  · subst hs
    show 0 < (zeroFlag ||| zeroPendingFlag) &&& zeroFlag
    decide
  · simp only [StickyCounter.load, ne_eq, hs, not_false_iff, if_true] at h ⊢
    by_cases hf : 0 < s &&& zeroFlag
    · simpa [hf] using hf
    · rw [if_neg hf] at h
      exact absurd h hs

lemma flagged_ne_zero {t : Nat} (hf : 0 < t &&& zeroFlag) : t ≠ 0 := by
  intro h
  subst h
  simp [Nat.zero_and] at hf

lemma flagged_preserved {t : Nat} (op : StickyOp) (hv : op.valid t)
    (hf : 0 < t &&& zeroFlag) : 0 < stickyApply t op &&& zeroFlag := by
  cases op with
  | inc n =>
    have hov : t + n < countWord := hv
    have ht : t < countWord := lt_of_le_of_lt (Nat.le_add_right t n) hov
    have hbit : t.testBit 31 = true := by
      have := (and_pow_pos_iff t 31).1 (by simpa [zeroFlag] using hf)
      exact this
    have h31 : 2 ^ 31 ≤ t := (testBit_31_iff t ht).1 hbit
    have hbit2 : (t + n).testBit 31 = true :=
      (testBit_31_iff (t + n) hov).2 (le_trans h31 (Nat.le_add_right t n))
    have : 0 < (t + n) &&& 2 ^ 31 := (and_pow_pos_iff (t + n) 31).2 hbit2
    simpa [stickyApply, StickyCounter.increment, Nat.mod_eq_of_lt hov, zeroFlag]
      using this
  | dec n =>
    obtain ⟨h1, h2⟩ := hv
    exfalso
    unfold logicalVal at h2
    rw [if_pos hf] at h2
    omega
  | load =>
    have ht0 : t ≠ 0 := flagged_ne_zero hf
    simpa [stickyApply, StickyCounter.load, ht0] using hf

lemma flagged_trace {s t : Nat} (htr : StickyTrace s t)
    (hs : 0 < s &&& zeroFlag) : 0 < t &&& zeroFlag := by
  induction htr with
  | refl => exact hs
  | step op _ hv ih => exact flagged_preserved op hv ih

/-- C1: on any state of a sticky counter reachable from `new()` by
well-formed increments, decrements and loads, once a `load` has returned
0, every load on every subsequently reachable state still returns 0 and
every well-formed increment on such a state returns false: the counter is
bound at zero forever. -/
theorem c1_sticky_zero_forever (s : Nat) (_hreach : StickyReachable s)
    (hzero : (StickyCounter.load s).2 = 0) (t : Nat)
    (htr : StickyTrace (StickyCounter.load s).1 t) :
    (StickyCounter.load t).2 = 0 ∧
      ∀ n, (StickyOp.inc n).valid t → (StickyCounter.increment t n).2 = false := by
  have hflag : 0 < t &&& zeroFlag := flagged_trace htr (flagged_of_load_eq_zero hzero)
  constructor
  · have ht0 : t ≠ 0 := flagged_ne_zero hflag
    simp [StickyCounter.load, ht0, hflag]
  · intro n _
    have : ¬ (t &&& zeroFlag = 0) := by omega
    simp [StickyCounter.increment, this]

/-- C1 witness: from the fresh counter, `decrement(1)` commits
`ZERO_FLAG`; a load then returns 0, after which another load still
returns 0 and `increment(1)` returns false. -/
theorem c1_sticky_zero_forever_witness :
    (StickyCounter.load ((StickyCounter.load zeroFlag).1)).2 = 0 ∧
      (StickyCounter.increment ((StickyCounter.load zeroFlag).1) 1).2 = false := by
  have hreach : StickyReachable zeroFlag := by
    have hstep := StickyTrace.step (s := stickyNew) (StickyOp.dec 1)
      (StickyTrace.refl stickyNew) (by exact ⟨by decide, by decide⟩)
    have happ : stickyApply stickyNew (StickyOp.dec 1) = zeroFlag := by decide
    rwa [happ] at hstep
  have hmain := c1_sticky_zero_forever zeroFlag hreach (by decide) _
    (StickyTrace.refl _)
  refine ⟨hmain.1, hmain.2 1 ?_⟩
  show (StickyCounter.load zeroFlag).1 + 1 < countWord
  decide

/-! ## Decrement and release-refs case analysis -/

lemma decrement_exact {v n : Nat} (hv : v < countWord) (he : v = n) :
    StickyCounter.decrement v n = (zeroFlag, true) := by
  have h0 : (n + (countWord - n % countWord)) % countWord = 0 := by
    rw [← he, Nat.mod_eq_of_lt hv]
    have h1 : v + (countWord - v) = countWord := by omega
    rw [h1, Nat.mod_self]
  simp [StickyCounter.decrement, h0, he]

lemma decrement_not_exact {v n : Nat} (hne : v ≠ n) :
    StickyCounter.decrement v n =
      ((v + (countWord - n % countWord)) % countWord, false) := by
  simp [StickyCounter.decrement, hne]

lemma releaseRefs_zeroed {c : CountedObject} {n : Nat} (hv : c.refCnt < countWord)
    (he : c.refCnt = n) :
    c.releaseRefs n =
      if (StickyCounter.load c.weakCnt).2 = 1 then
        (⟨false, zeroFlag, (StickyCounter.load c.weakCnt).1⟩, EjectAction.Destroy)
      else
        (⟨c.storageLive, zeroFlag, (StickyCounter.load c.weakCnt).1⟩,
          EjectAction.Delay) := by
  unfold CountedObject.releaseRefs
  rw [decrement_exact hv he]
  rcases hld : StickyCounter.load c.weakCnt with ⟨w, wval⟩
  by_cases hw : wval = 1 <;> simp [hld, hw, CountedObject.dispose]

lemma releaseRefs_not_zeroed {c : CountedObject} {n : Nat} (hne : c.refCnt ≠ n) :
    c.releaseRefs n =
      ({ c with refCnt := (c.refCnt + (countWord - n % countWord)) % countWord },
        EjectAction.Nothing) := by
  unfold CountedObject.releaseRefs
  rw [decrement_not_exact hne]
  rfl

lemma decrementRefCnt_cases (c : CountedObject) :
    (decrementRefCnt c).2 = (match (c.releaseRefs 1).2 with
      | EjectAction.Nothing => DecRefOutcome.noAction
      | EjectAction.Delay => DecRefOutcome.retired RetireType.Dispose
      | EjectAction.Destroy => DecRefOutcome.destroyed) := by
  unfold decrementRefCnt
  rcases hr : c.releaseRefs 1 with ⟨c', a⟩
  cases a <;> simp [hr]

/-- C7: for a counter word `v` with neither flag set and `n ≤ v`,
`decrement(n)` returns true iff `v = n`, i.e. iff this call brings the
counter to zero; on a true return the word afterwards is exactly
`ZERO_FLAG`, which reads as zero. -/
theorem c7_decrement_zeroes_iff (v n : Nat) (hv : v < countWord)
    (hzf : v &&& zeroFlag = 0) (hzpf : v &&& zeroPendingFlag = 0) (hn : n ≤ v) :
    ((StickyCounter.decrement v n).2 = true ↔ v = n) ∧
      ((StickyCounter.decrement v n).2 = true →
        (StickyCounter.decrement v n).1 = zeroFlag ∧
          (StickyCounter.load (StickyCounter.decrement v n).1).2 = 0) := by
  by_cases he : v = n
  · rw [decrement_exact hv he]
    exact ⟨by simp [he], fun _ => ⟨rfl, by decide⟩⟩
  · rw [decrement_not_exact he]
    simp [he]

/-- C7 witness: `v = 1`, `n = 1`. -/
theorem c7_decrement_zeroes_iff_witness :
    ((StickyCounter.decrement 1 1).2 = true ↔ (1 : Nat) = 1) ∧
      ((StickyCounter.decrement 1 1).2 = true →
        (StickyCounter.decrement 1 1).1 = zeroFlag ∧
          (StickyCounter.load (StickyCounter.decrement 1 1).1).2 = 0) :=
  c7_decrement_zeroes_iff 1 1 (by decide) (by decide) (by decide) (by decide)

/-- C2: for a header whose strong counter word is a plain value (no flags)
at least `n ≥ 1`, `release_refs(n)` returns `Destroy` iff the decrement
zeroes the strong count and the weak counter reads 1, `Delay` iff it
zeroes the strong count and the weak counter does not read 1, and
`Nothing` iff the decrement does not zero the strong count; in the
`Destroy` case the payload has been disposed, and
`decrement_ref_cnt` then destroys on `Destroy` and retires a `Dispose`
record on `Delay`. -/
theorem c2_release_refs_eject_cases (c : CountedObject) (n : Nat)
    (hv : c.refCnt < countWord) (hzf : c.refCnt &&& zeroFlag = 0)
    (hn1 : 1 ≤ n) (hn : n ≤ c.refCnt) :
    ((c.releaseRefs n).2 = EjectAction.Destroy ↔
        c.refCnt = n ∧ (StickyCounter.load c.weakCnt).2 = 1) ∧
      ((c.releaseRefs n).2 = EjectAction.Delay ↔
        c.refCnt = n ∧ (StickyCounter.load c.weakCnt).2 ≠ 1) ∧
      ((c.releaseRefs n).2 = EjectAction.Nothing ↔ c.refCnt ≠ n) ∧
      ((c.releaseRefs n).2 = EjectAction.Destroy →
        ((c.releaseRefs n).1).storageLive = false) ∧
      ((c.releaseRefs 1).2 = EjectAction.Destroy →
        (decrementRefCnt c).2 = DecRefOutcome.destroyed) ∧
      ((c.releaseRefs 1).2 = EjectAction.Delay →
        (decrementRefCnt c).2 = DecRefOutcome.retired RetireType.Dispose) := by
  have hdec := decrementRefCnt_cases c
  refine ⟨?_, ?_, ?_, ?_, fun h => by rw [h] at hdec; simpa using hdec,
    fun h => by rw [h] at hdec; simpa using hdec⟩
  all_goals by_cases he : c.refCnt = n
  · rw [releaseRefs_zeroed hv he]
    by_cases hw : (StickyCounter.load c.weakCnt).2 = 1 <;> simp [hw, he]
  · rw [releaseRefs_not_zeroed he]
    simp [he]
  · rw [releaseRefs_zeroed hv he]
    by_cases hw : (StickyCounter.load c.weakCnt).2 = 1 <;> simp [hw, he]
  · rw [releaseRefs_not_zeroed he]
    simp [he]
  · rw [releaseRefs_zeroed hv he]
    by_cases hw : (StickyCounter.load c.weakCnt).2 = 1 <;> simp [hw, he]
  · rw [releaseRefs_not_zeroed he]
    simp [he]
  · rw [releaseRefs_zeroed hv he]
    by_cases hw : (StickyCounter.load c.weakCnt).2 = 1 <;> simp [hw]
  · rw [releaseRefs_not_zeroed he]
    simp

/-- C2 witness: a fresh header (strong 1, weak 1) released with `n = 1`. -/
theorem c2_release_refs_eject_cases_witness :
    ((CountedObject.new.releaseRefs 1).2 = EjectAction.Destroy ↔
        CountedObject.new.refCnt = 1 ∧
          (StickyCounter.load CountedObject.new.weakCnt).2 = 1) ∧
      ((CountedObject.new.releaseRefs 1).2 = EjectAction.Delay ↔
        CountedObject.new.refCnt = 1 ∧
          (StickyCounter.load CountedObject.new.weakCnt).2 ≠ 1) ∧
      ((CountedObject.new.releaseRefs 1).2 = EjectAction.Nothing ↔
        CountedObject.new.refCnt ≠ 1) ∧
      ((CountedObject.new.releaseRefs 1).2 = EjectAction.Destroy →
        ((CountedObject.new.releaseRefs 1).1).storageLive = false) ∧
      ((CountedObject.new.releaseRefs 1).2 = EjectAction.Destroy →
        (decrementRefCnt CountedObject.new).2 = DecRefOutcome.destroyed) ∧
      ((CountedObject.new.releaseRefs 1).2 = EjectAction.Delay →
        (decrementRefCnt CountedObject.new).2 =
          DecRefOutcome.retired RetireType.Dispose) :=
  c2_release_refs_eject_cases CountedObject.new 1 (by decide) (by decide)
    (by decide) (by decide)

/-! ## Loads from a cell with an expired header -/

/-- C3 counterexample: with alignment 4 (`k = 2`), a cell holding the
non-null word 8, and a header whose strong counter is stuck at zero
(`ZERO_FLAG` committed, so `use_count()` reads 0 and the sticky increment
is rejected), `AtomicRcPtr::load` still returns the non-null pointer 8 —
not a null strong reference as the claim requires. -/
theorem c3_load_returns_nonnull_on_expired :
    (StickyCounter.load (⟨true, zeroFlag, 1⟩ : CountedObject).refCnt).2 = 0 ∧
      ((⟨true, zeroFlag, 1⟩ : CountedObject).addRefs 1).2 = false ∧
      MarkedPtr.isNull 2 (AtomicRcPtr.load 2 8 ⟨true, zeroFlag, 1⟩).1 = false := by
  refine ⟨by decide, by decide, by decide⟩

/-- C3 amended: `AtomicRcPtr::load` returns the loaded cell word verbatim
— it performs the sticky increment but never checks its result — while the
null-on-expired behaviour belongs to the snapshot path:
`protect_snapshot` / `reserve_snapshot` hand back a null acquired pointer
whenever the non-null header's strong count reads zero. -/
theorem c3_amended_load_verbatim_snapshot_null (k link : Nat) (h : CountedObject)
    (hnn : MarkedPtr.unmarked k link ≠ 0)
    (hexp : (StickyCounter.load h.refCnt).2 = 0) :
    (AtomicRcPtr.load k link h).1 = link ∧
      (protectSnapshot k link h).2 = 0 := by
  constructor
  · show (RcPtr.newWithIncr k link h).1 = link
    unfold RcPtr.newWithIncr
    split <;> rfl
  · unfold protectSnapshot reserveSnapshot
    rcases hld : StickyCounter.load h.refCnt with ⟨r, uc⟩
    have huc : uc = 0 := by rw [hld] at hexp; exact hexp
    simp [hnn, hld, huc]

/-- C3 amended witness: same concrete cell and expired header as the
counterexample. -/
theorem c3_amended_witness :
    (AtomicRcPtr.load 2 8 ⟨true, zeroFlag, 1⟩).1 = 8 ∧
      (protectSnapshot 2 8 ⟨true, zeroFlag, 1⟩).2 = 0 :=
  c3_amended_load_verbatim_snapshot_null 2 8 ⟨true, zeroFlag, 1⟩
    (by decide) (by decide)

/-! ## Weak-cell compare-exchange and upgrade -/

/-- C4: at the failing input — a successful `AtomicWeak::compare_exchange`
of a null cell against a `WeakSnapshot` desired of address 8 with a fresh
header (strong 1, weak 1) — `into_weak_count` calls `cnt.add_ref()`: the
header's strong count is incremented to 2 and its weak count is left at 1,
whereas the weak mirror described by the spec must increment the weak
count and leave the strong count alone. -/
theorem c4_weak_cas_increments_strong_not_weak :
    (AtomicWeak.compareExchange 2 0 0 (WeakP.weakSnapshot 8)
        CountedObject.new).1.1 = 8 ∧
      (AtomicWeak.compareExchange 2 0 0 (WeakP.weakSnapshot 8)
        CountedObject.new).2 = Sum.inl 0 ∧
      (AtomicWeak.compareExchange 2 0 0 (WeakP.weakSnapshot 8)
        CountedObject.new).1.2.weakCnt = CountedObject.new.weakCnt ∧
      (AtomicWeak.compareExchange 2 0 0 (WeakP.weakSnapshot 8)
        CountedObject.new).1.2.refCnt = CountedObject.new.refCnt + 1 := by
  refine ⟨by decide, by decide, by decide, by decide⟩

/-- C5: for every non-null weak reference, the (spec-modelled)
`Weak::upgrade` performs `add_strong(1)` on the header and returns a
non-null strong pointer iff the strong count had not reached zero
(`ZERO_FLAG` unset); an observed-expired target yields a null result. -/
theorem c5_weak_upgrade_iff (k p : Nat) (h : CountedObject)
    (hnn : MarkedPtr.unmarked k p ≠ 0) :
    (MarkedPtr.unmarked k (Weak.upgrade k p h).1 ≠ 0 ↔
        h.refCnt &&& zeroFlag = 0) ∧
      ((Weak.upgrade k p h).2).refCnt = (StickyCounter.increment h.refCnt 1).1 ∧
      (h.refCnt &&& zeroFlag ≠ 0 → (Weak.upgrade k p h).1 = 0) := by
  unfold Weak.upgrade
  have hnn' : ¬(p &&& notLowBits k = 0) := hnn
  by_cases hok : h.refCnt &&& zeroFlag = 0 <;>
    simp [hnn', CountedObject.addRefs, StickyCounter.increment, hok,
      MarkedPtr.unmarked, Nat.zero_and]

/-- C5 witness: address 8 with alignment 4, fresh live header. -/
theorem c5_weak_upgrade_iff_witness :
    (MarkedPtr.unmarked 2 (Weak.upgrade 2 8 CountedObject.new).1 ≠ 0 ↔
        CountedObject.new.refCnt &&& zeroFlag = 0) ∧
      ((Weak.upgrade 2 8 CountedObject.new).2).refCnt =
        (StickyCounter.increment CountedObject.new.refCnt 1).1 ∧
      (CountedObject.new.refCnt &&& zeroFlag ≠ 0 →
        (Weak.upgrade 2 8 CountedObject.new).1 = 0) :=
  c5_weak_upgrade_iff 2 8 CountedObject.new (by decide)

/-! ## Strong-cell compare-exchange failure -/

/-- C6: when `AtomicRc::compare_exchange` fails (the cell's current word
differs from `expected`), the stored pointer and the desired target's
header counts are unchanged, and the error carries the `desired` pointer
verbatim together with the actual current pointer. -/
theorem c6_strong_cas_failure_frame (k link expected : Nat) (desired : StrongP)
    (h : CountedObject) (hne : link ≠ expected) :
    AtomicRc.compareExchange k link expected desired h =
      ((link, h), Sum.inr (desired, link)) := by
  unfold AtomicRc.compareExchange
  simp [hne]

/-- C6 witness: cell word 8, expected 0 (mismatch), desired `Rc` of 12. -/
theorem c6_strong_cas_failure_frame_witness :
    AtomicRc.compareExchange 2 8 0 (StrongP.rc 12) CountedObject.new =
      ((8, CountedObject.new), Sum.inr (StrongP.rc 12, 8)) :=
  c6_strong_cas_failure_frame 2 8 0 (StrongP.rc 12) CountedObject.new (by decide)

/-! ## Ejection sweep partitioning -/

/-- C9: in the ejection sweep of `work_toward_ejects`, a deferred record
is ejected iff its retire epoch is strictly below the minimum announced
epoch read at the start of the sweep, and the records returned to the
deferred list are exactly the remaining ones, unchanged and in order. -/
theorem c9_sweep_partition (defers : List DeferredRecord) (minEpoch : Nat) :
    (∀ d, d ∈ sweepEjected defers minEpoch ↔
        d ∈ defers ∧ d.retireTs < minEpoch) ∧
      sweepKept defers minEpoch =
        defers.filter fun d => decide (minEpoch ≤ d.retireTs) := by
  constructor
  · intro d
    rw [sweepEjected, List.mem_filterMap]
    constructor
    · rintro ⟨a, ha, hfa⟩
      by_cases hx : a.retireTs < minEpoch
      · rw [if_pos hx] at hfa
        injection hfa with h
        subst h
        exact ⟨ha, hx⟩
      · rw [if_neg hx] at hfa
        cases hfa
    · rintro ⟨hd, hts⟩
      exact ⟨d, hd, by rw [if_pos hts]⟩
  · induction defers with
    | nil => rfl
    | cons x xs ih =>
      by_cases hx : x.retireTs < minEpoch
      · simpa [sweepKept, List.filterMap_cons, List.filter_cons, hx,
          Nat.not_le_of_lt hx] using ih
      · simpa [sweepKept, List.filterMap_cons, List.filter_cons, hx,
          Nat.le_of_not_lt hx] using ih
